import Mathlib

/-!
# DataStore: a type-indexed object registry

Shallow embedding of `src/datastore/data_store.hpp` (namespace `DataStore`) and of the
earlier header `src/data_store.hpp` (namespace `DataStore0`).

* A template argument is a `CType`.
* Objects are represented by a natural number: the contents of a class object, the
  address held by a raw pointer (`0` is `nullptr`), or the address managed by a
  `std::shared_ptr` (`0` is the empty handle).
* `std::any` is a recorded type together with such a value.
* `std::map<size_t, std::any>` is an association list with unique keys; the class only
  ever looks entries up by key, inserts, erases and clears.
* Function-local `static` variables are fields of an explicit `Statics` record which
  every member function that calls `get_type_key` threads through.
* The `while` loop of `get_unique_key` runs on fuel; `none` means the fuel ran out.
-/

/-- Static C++ types that instantiate the templates of the class. -/
inductive CType where
  | named (id : Nat)
  | ptr (pointee : CType)
  | shared_ptr (element : CType)
  | lref (referred : CType)
  deriving DecidableEq, Repr

namespace CType

/-- Type seen by `typeid` and kept by `std::decay_t`: a reference is dropped. -/
def remove_reference : CType → CType
  | lref t => t
  | t => t

/-- Trait `details::is_shared_ptr<T>::value`. -/
def is_shared_ptr : CType → Bool
  | shared_ptr _ => true
  | _ => false

/-- Trait `std::is_pointer_v<T>`. -/
def is_pointer : CType → Bool
  | ptr _ => true
  | _ => false

end CType

/-- Descriptor `std::type_index(typeid(T))`. -/
def typeid (T : CType) : CType := T.remove_reference

/-- Implementation-defined library functions and the constructors of user types. -/
structure Env where
  /-- Function `std::type_index::hash_code`. -/
  hash_code : CType → Nat
  /-- Function object `std::hash<size_t>`. -/
  hash_size_t : Nat → Nat
  /-- Value built by `T(args...)`. -/
  construct : CType → List Nat → Nat

/-- Exceptions thrown inside the class. -/
inductive Exception where
  | bad_any_cast
  deriving DecidableEq, Repr

/-- Class `std::any` holding a value: the recorded type and the object. -/
structure any where
  type : CType
  value : Nat
  deriving DecidableEq, Repr

/-- Function `std::make_any<T>(x)`: the held object has type `std::decay_t<T>`. -/
def make_any (T : CType) (x : Nat) : any := ⟨T.remove_reference, x⟩

/-- Function `std::any_cast<T>(a)`: throws unless the recorded type is `typeid(T)`. -/
def any_cast (T : CType) (a : any) : Except Exception Nat :=
  if a.type = typeid T then .ok a.value else .error .bad_any_cast

/-- Member `std::map::find`; `none` is `end()`. -/
def map_find (k : Nat) : List (Nat × any) → Option any
  | [] => none
  | e :: m => if e.1 = k then some e.2 else map_find k m

/-- Members `std::map::insert` and `std::map::emplace`: nothing happens when the key
is already present. -/
def map_insert (k : Nat) (a : any) (m : List (Nat × any)) : List (Nat × any) :=
  match map_find k m with
  | some _ => m
  | none => m ++ [(k, a)]

/-- Member `std::map::erase(key)`. -/
def map_erase (k : Nat) : List (Nat × any) → List (Nat × any)
  | [] => []
  | e :: m => if e.1 = k then map_erase k m else e :: map_erase k m

/-- Value returned by `get<Object>()`; its shape is fixed by `Object`. -/
inductive Result where
  /-- A `std::shared_ptr`; `0` is the empty handle. -/
  | handle (h : Nat)
  /-- A raw pointer returned as it was stored; `0` is `nullptr`. -/
  | pointer (p : Nat)
  /-- A `const Object*`: `none` is `nullptr`, `some v` points at the stored object,
  whose contents are `v`. -/
  | address (target : Option Nat)
  deriving DecidableEq, Repr

namespace Result

/-- Test `!r` of the caller: null pointer or empty handle. -/
def is_null : Result → Bool
  | handle h => decide (h = 0)
  | pointer p => decide (p = 0)
  | address t => t.isNone

end Result

/-- Local `bad_value {nullptr}` of `get<Object>()`. -/
def bad_value (Object : CType) : Result :=
  if Object.is_shared_ptr then .handle 0
  else if Object.is_pointer then .pointer 0
  else .address none

/-- The `try` block of `get<Object>()`, one branch per shape. -/
def decode (Object : CType) (entry : any) : Except Exception Result :=
  if Object.is_shared_ptr then
    (any_cast Object entry).map Result.handle
  else if Object.is_pointer then
    (any_cast Object entry).map Result.pointer
  else
    (any_cast Object entry).map (fun v => Result.address (some v))

/-- Instance of the class: the member `_data`. -/
structure Store where
  _data : List (Nat × any)
  deriving DecidableEq, Repr

/-- Store built by `DataStore() = default`. -/
def Store.empty : Store := ⟨[]⟩

/-- Member `clear`. -/
def clear (d : Store) : Store := { d with _data := [] }

/-! ## `src/datastore/data_store.hpp` -/

namespace DataStore

/-- Function-local statics of `get_unique_key` and of every `get_type_key<T>`. -/
structure Statics where
  /-- Variable `static std::set<size_t> hash_set`. -/
  hash_set : List Nat
  /-- Variable `static bool key_initialized` of `get_type_key<T>`. -/
  key_initialized : CType → Bool
  /-- Variable `static key_type object_key` of `get_type_key<T>`. -/
  object_key : CType → Nat

/-- Statics at program start: the set is empty, every flag is `false`, and every
`object_key`, having no initialiser, is zero-initialised. -/
def Statics.init : Statics :=
  { hash_set := [], key_initialized := fun _ => false, object_key := fun _ => 0 }

/-- Loop `while (hash_set.find(hash) != end) hash = std::hash<size_t>{}(hash)`. -/
def rehash (P : Env) (hash_set : List Nat) : Nat → Nat → Option Nat
  | 0, hash => if hash ∈ hash_set then none else some hash
  | fuel + 1, hash =>
    if hash ∈ hash_set then rehash P hash_set fuel (P.hash_size_t hash) else some hash

/-- Function `get_unique_key`; it reads `hash_set` and never writes it. -/
def get_unique_key (P : Env) (fuel : Nat) (s : Statics) (type_index : CType) : Option Nat :=
  rehash P s.hash_set fuel (P.hash_code type_index)

/-- Function `get_type_key<T>`: on the first call the flag is set and `get_unique_key`
is called, its result dropped; `object_key` is returned. -/
def get_type_key (P : Env) (fuel : Nat) (T : CType) (s : Statics) : Option (Nat × Statics) :=
  if s.key_initialized T then
    some (s.object_key T, s)
  else
    let s1 : Statics := { s with key_initialized := Function.update s.key_initialized T true }
    match get_unique_key P fuel s1 (typeid T) with
    | none => none
    | some _ => some (s1.object_key T, s1)

/-- Member `insert<Object>(object)`. -/
def insert (P : Env) (fuel : Nat) (Object : CType) (object : Nat) (s : Statics) (d : Store) :
    Option (Statics × Store) :=
  match get_type_key P fuel Object s with
  | none => none
  | some (key, s1) => some (s1, { d with _data := map_insert key (make_any Object object) d._data })

/-- Member `emplace<Object>(args...)`. -/
def emplace (P : Env) (fuel : Nat) (Object : CType) (args : List Nat) (s : Statics) (d : Store) :
    Option (Statics × Store) :=
  match get_type_key P fuel Object s with
  | none => none
  | some (key, s1) =>
    some (s1, { d with _data := map_insert key (make_any Object (P.construct Object args)) d._data })

/-- Member `erase<Object>()`. -/
def erase (P : Env) (fuel : Nat) (Object : CType) (s : Statics) (d : Store) :
    Option (Statics × Store) :=
  match get_type_key P fuel Object s with
  | none => none
  | some (key, s1) => some (s1, { d with _data := map_erase key d._data })

/-- Member `get<Object>() const`; the non-const overload returns the same pointer with
the constness cast away. -/
def get (P : Env) (fuel : Nat) (Object : CType) (s : Statics) (d : Store) :
    Option (Result × Statics) :=
  match get_type_key P fuel Object s with
  | none => none
  | some (key, s1) =>
    match map_find key d._data with
    | none => some (bad_value Object, s1)
    | some entry =>
      match decode Object entry with
      | .ok r => some (r, s1)
      | .error _ => some (bad_value Object, s1)

/-- One call on a store. -/
inductive Op where
  | insert (Object : CType) (object : Nat)
  | emplace (Object : CType) (args : List Nat)
  | erase (Object : CType)
  | get (Object : CType)
  | clear
  deriving DecidableEq, Repr

/-- Effect of one call on the statics and the store. -/
def step (P : Env) (fuel : Nat) (o : Op) (s : Statics) (d : Store) : Option (Statics × Store) :=
  match o with
  | .insert T v => insert P fuel T v s d
  | .emplace T args => emplace P fuel T args s d
  | .erase T => erase P fuel T s d
  | .get T => (get P fuel T s d).map (fun r => (r.2, d))
  | .clear => some (s, clear d)

/-- Effect of a sequence of calls. -/
def run (P : Env) (fuel : Nat) : List Op → Statics → Store → Option (Statics × Store)
  | [], s, d => some (s, d)
  | o :: os, s, d =>
    match step P fuel o s d with
    | none => none
    | some (s1, d1) => run P fuel os s1 d1

/-- Statics a process can be in: the initial ones, and those left by a call of some
`get_type_key<T>`, the only function that writes them. -/
inductive Reachable (P : Env) (fuel : Nat) : Statics → Prop where
  | init : Reachable P fuel Statics.init
  | resolve {s s1 : Statics} {T : CType} {k : Nat} :
      Reachable P fuel s → get_type_key P fuel T s = some (k, s1) → Reachable P fuel s1

end DataStore

/-! ## `src/data_store.hpp` -/

namespace DataStore0

/-- Variable `static const key_type object_key` of every `get_type_key<T>`: `none` until
the first call initialises it. -/
abbrev Statics := CType → Option Nat

/-- Statics at program start. -/
def Statics.init : Statics := fun _ => none

/-- Function `get_type_key<T>`. -/
def get_type_key (P : Env) (T : CType) (s : Statics) : Nat × Statics :=
  match s T with
  | some object_key => (object_key, s)
  | none =>
    let object_key := P.hash_code (typeid T)
    (object_key, Function.update s T (some object_key))

/-- Member `insert<Object>(object)`. -/
def insert (P : Env) (Object : CType) (object : Nat) (s : Statics) (d : Store) :
    Statics × Store :=
  let r := get_type_key P Object s
  (r.2, { d with _data := map_insert r.1 (make_any Object object) d._data })

/-- Member `get<Object>() const`. -/
def get (P : Env) (Object : CType) (s : Statics) (d : Store) : Result × Statics :=
  let r := get_type_key P Object s
  match map_find r.1 d._data with
  | none => (bad_value Object, r.2)
  | some entry =>
    match decode Object entry with
    | .ok v => (v, r.2)
    | .error _ => (bad_value Object, r.2)

end DataStore0

/-- Result that exposes an object `x` stored as an `Object`: the handle or the raw
pointer itself, or the address of the stored value. -/
def stored_result (Object : CType) (x : Nat) : Result :=
  if Object.is_shared_ptr then .handle x
  else if Object.is_pointer then .pointer x
  else .address (some x)

/-- The class `Foo` of the test suite. -/
def Foo : CType := .named 0

/-- Another class type. -/
def Widget : CType := .named 1

namespace DataStore0

/-- Resolution of a sequence of types, one `get_type_key<T>` call each. -/
def resolve_all (P : Env) : List CType → Statics → Statics
  | [], s => s
  | T :: Ts, s => resolve_all P Ts (get_type_key P T s).2

end DataStore0

/-- Numbering of the type descriptors used by the sample environment. -/
def CType.code : CType → Nat
  | .named n => 4 * n + 4
  | .ptr t => 4 * t.code + 1
  | .shared_ptr t => 4 * t.code + 2
  | .lref t => 4 * t.code + 3

/-- A sample environment with an injective `hash_code` and the identity as
`std::hash<size_t>`. -/
def Env.sample : Env :=
  { hash_code := CType.code, hash_size_t := fun h => h, construct := fun _ args => args.sum }

/-- A sample environment in which all type descriptors have the same hash code. -/
def Env.colliding : Env :=
  { hash_code := fun _ => 7, hash_size_t := fun h => h + 1, construct := fun _ args => args.sum }

namespace DataStore0

/-- Member `emplace<Object>(args...)`. -/
def emplace (P : Env) (Object : CType) (args : List Nat) (s : Statics) (d : Store) :
    Statics × Store :=
  let r := get_type_key P Object s
  (r.2, { d with _data := map_insert r.1 (make_any Object (P.construct Object args)) d._data })

end DataStore0

/-! ## The association list behind `_data` -/

theorem map_find_insert_free (k : Nat) (a : any) (m : List (Nat × any))
    (h : map_find k m = none) : map_find k (map_insert k a m) = some a := by
  have key : ∀ l : List (Nat × any), map_find k l = none →
      map_find k (l ++ [(k, a)]) = some a := by
    intro l
    induction l with
    | nil => intro _; simp [map_find]
    | cons e l ih =>
      intro hl
      by_cases he : e.1 = k
      · simp [map_find, he] at hl
      · simp only [map_find, he, if_false] at hl
        simp [map_find, he, ih hl]
  simp only [map_insert, h]
  exact key m h

theorem map_find_insert_taken (k : Nat) (a b : any) (m : List (Nat × any))
    (h : map_find k m = some b) : map_insert k a m = m := by
  simp [map_insert, h]

theorem map_find_erase (k : Nat) (m : List (Nat × any)) :
    map_find k (map_erase k m) = none := by
  induction m with
  | nil => rfl
  | cons e m ih =>
    by_cases he : e.1 = k
    · simpa [map_erase, he] using ih
    · simp [map_erase, he, map_find, ih]

theorem map_erase_absent (k : Nat) (m : List (Nat × any)) (h : map_find k m = none) :
    map_erase k m = m := by
  induction m with
  | nil => rfl
  | cons e m ih =>
    by_cases he : e.1 = k
    · simp [map_find, he] at h
    · simp only [map_find, he, if_false] at h
      simp [map_erase, he, ih h]

/-! ## Decoding -/

theorem decode_make_any (T : CType) (x : Nat) :
    decode T (make_any T x) = .ok (stored_result T x) := by
  unfold decode stored_result any_cast make_any typeid
  by_cases h1 : T.is_shared_ptr = true
  · simp [h1, Except.map]
  · by_cases h2 : T.is_pointer = true
    · simp [h1, h2, Except.map]
    · simp [h1, h2, Except.map]

theorem decode_mismatch (T : CType) (entry : any) (h : entry.type ≠ typeid T) :
    decode T entry = .error .bad_any_cast := by
  unfold decode any_cast
  by_cases h1 : T.is_shared_ptr = true
  · simp [h1, h, Except.map]
  · by_cases h2 : T.is_pointer = true
    · simp [h1, h2, h, Except.map]
    · simp [h1, h2, h, Except.map]

theorem bad_value_is_null (T : CType) : (bad_value T).is_null = true := by
  unfold bad_value
  by_cases h1 : T.is_shared_ptr = true
  · simp [h1, Result.is_null]
  · by_cases h2 : T.is_pointer = true
    · simp [h1, h2, Result.is_null]
    · simp [h1, h2, Result.is_null]

theorem stored_result_is_null (T : CType) (x : Nat) :
    (stored_result T x).is_null = true ↔
      (T.is_shared_ptr = true ∨ T.is_pointer = true) ∧ x = 0 := by
  unfold stored_result
  by_cases h1 : T.is_shared_ptr = true
  · simp [h1, Result.is_null]
  · by_cases h2 : T.is_pointer = true
    · simp [h1, h2, Result.is_null]
    · simp [h1, h2, Result.is_null]

/-! ## The statics of `src/datastore/data_store.hpp` -/

namespace DataStore

theorem rehash_empty (P : Env) (fuel hash : Nat) : rehash P [] fuel hash = some hash := by
  cases fuel <;> simp [rehash]

/-- A call of `get_type_key<T>` writes neither `hash_set` nor any `object_key`. -/
theorem get_type_key_frame (P : Env) (fuel : Nat) (T : CType) (s s1 : Statics) (k : Nat)
    (h : get_type_key P fuel T s = some (k, s1)) :
    s1.hash_set = s.hash_set ∧ s1.object_key = s.object_key ∧ k = s.object_key T := by
  unfold get_type_key at h
  by_cases hi : s.key_initialized T = true
  · simp only [hi, if_true, Option.some.injEq, Prod.mk.injEq] at h
    obtain ⟨hk, hs⟩ := h
    subst hs
    exact ⟨rfl, rfl, hk.symm⟩
  · simp only [hi, Bool.false_eq_true, if_false] at h
    split at h
    · exact absurd h (by simp)
    · simp only [Option.some.injEq, Prod.mk.injEq] at h
      obtain ⟨hk, hs⟩ := h
      subst hs
      exact ⟨rfl, rfl, hk.symm⟩

/-- In every reachable state the set of issued keys is empty and every `object_key`
still holds its initial zero. -/
theorem Reachable.inv {P : Env} {fuel : Nat} {s : Statics} (h : Reachable P fuel s) :
    s.hash_set = [] ∧ ∀ T, s.object_key T = 0 := by
  induction h with
  | init => exact ⟨rfl, fun _ => rfl⟩
  | resolve _ hk ih =>
    obtain ⟨h1, h2, _⟩ := get_type_key_frame _ _ _ _ _ _ hk
    exact ⟨h1.trans ih.1, fun T => by rw [h2]; exact ih.2 T⟩

/-- In a reachable state `get_type_key<T>` returns, and returns zero. -/
theorem get_type_key_reachable (P : Env) (fuel : Nat) (T : CType) (s : Statics)
    (hs : Reachable P fuel s) :
    ∃ s1, get_type_key P fuel T s = some (0, s1) ∧ Reachable P fuel s1 := by
  obtain ⟨hset, hkey⟩ := hs.inv
  have hex : ∃ k s1, get_type_key P fuel T s = some (k, s1) := by
    unfold get_type_key
    by_cases hi : s.key_initialized T = true
    · refine ⟨s.object_key T, s, ?_⟩
      simp [hi]
    · simp only [hi, Bool.false_eq_true, if_false, get_unique_key, hset, rehash_empty]
      exact ⟨_, _, rfl⟩
  obtain ⟨k, s1, hk⟩ := hex
  obtain ⟨_, _, h3⟩ := get_type_key_frame _ _ _ _ _ _ hk
  rw [hkey T] at h3
  subst h3
  exact ⟨s1, hk, Reachable.resolve hs hk⟩

/-- A second call of `get_type_key<T>` returns the key of the first and leaves the
statics alone. -/
theorem get_type_key_again (P : Env) (fuel : Nat) (T : CType) (s s1 : Statics) (k : Nat)
    (h : get_type_key P fuel T s = some (k, s1)) :
    get_type_key P fuel T s1 = some (k, s1) := by
  unfold get_type_key at h
  by_cases hi : s.key_initialized T = true
  · simp only [hi, if_true, Option.some.injEq, Prod.mk.injEq] at h
    obtain ⟨hk, hs⟩ := h
    subst hs
    subst hk
    simp [get_type_key, hi]
  · simp only [hi, Bool.false_eq_true, if_false] at h
    split at h
    · exact absurd h (by simp)
    · simp only [Option.some.injEq, Prod.mk.injEq] at h
      obtain ⟨hk, hs⟩ := h
      subst hs
      subst hk
      simp [get_type_key]

end DataStore

/-! ## Member functions in a reachable state -/

namespace DataStore

theorem insert_reachable (P : Env) (fuel : Nat) (T : CType) (v : Nat) (s : Statics) (d : Store)
    (hs : Reachable P fuel s) :
    ∃ s1, insert P fuel T v s d = some (s1, ⟨map_insert 0 (make_any T v) d._data⟩) ∧
      Reachable P fuel s1 := by
  obtain ⟨s1, hk, hr⟩ := get_type_key_reachable P fuel T s hs
  exact ⟨s1, by simp [insert, hk], hr⟩

theorem emplace_reachable (P : Env) (fuel : Nat) (T : CType) (args : List Nat) (s : Statics)
    (d : Store) (hs : Reachable P fuel s) :
    ∃ s1, emplace P fuel T args s d =
        some (s1, ⟨map_insert 0 (make_any T (P.construct T args)) d._data⟩) ∧
      Reachable P fuel s1 := by
  obtain ⟨s1, hk, hr⟩ := get_type_key_reachable P fuel T s hs
  exact ⟨s1, by simp [emplace, hk], hr⟩

theorem erase_reachable (P : Env) (fuel : Nat) (T : CType) (s : Statics) (d : Store)
    (hs : Reachable P fuel s) :
    ∃ s1, erase P fuel T s d = some (s1, ⟨map_erase 0 d._data⟩) ∧ Reachable P fuel s1 := by
  obtain ⟨s1, hk, hr⟩ := get_type_key_reachable P fuel T s hs
  exact ⟨s1, by simp [erase, hk], hr⟩

theorem get_reachable_absent (P : Env) (fuel : Nat) (T : CType) (s : Statics) (d : Store)
    (hs : Reachable P fuel s) (h : map_find 0 d._data = none) :
    ∃ s1, get P fuel T s d = some (bad_value T, s1) ∧ Reachable P fuel s1 := by
  obtain ⟨s1, hk, hr⟩ := get_type_key_reachable P fuel T s hs
  exact ⟨s1, by simp [get, hk, h], hr⟩

theorem get_reachable_found (P : Env) (fuel : Nat) (T : CType) (s : Statics) (d : Store)
    (entry : any) (hs : Reachable P fuel s) (h : map_find 0 d._data = some entry) :
    ∃ s1, get P fuel T s d =
        some ((match decode T entry with
          | .ok r => r
          | .error _ => bad_value T), s1) ∧
      Reachable P fuel s1 := by
  obtain ⟨s1, hk, hr⟩ := get_type_key_reachable P fuel T s hs
  refine ⟨s1, ?_, hr⟩
  simp only [get, hk, h]
  cases decode T entry <;> rfl

theorem step_reachable (P : Env) (fuel : Nat) (o : Op) (s : Statics) (d : Store)
    (hs : Reachable P fuel s) :
    ∃ s1 d1, step P fuel o s d = some (s1, d1) ∧ Reachable P fuel s1 := by
  cases o with
  | insert T v =>
    obtain ⟨s1, h, hr⟩ := insert_reachable P fuel T v s d hs
    exact ⟨s1, _, h, hr⟩
  | emplace T args =>
    obtain ⟨s1, h, hr⟩ := emplace_reachable P fuel T args s d hs
    exact ⟨s1, _, h, hr⟩
  | erase T =>
    obtain ⟨s1, h, hr⟩ := erase_reachable P fuel T s d hs
    exact ⟨s1, _, h, hr⟩
  | get T =>
    obtain ⟨s1, hk, hr⟩ := get_type_key_reachable P fuel T s hs
    refine ⟨s1, d, ?_, hr⟩
    simp only [step, get, hk]
    cases map_find 0 d._data with
    | none => rfl
    | some entry =>
      dsimp only
      cases decode T entry <;> rfl
  | clear => exact ⟨s, clear d, rfl, hs⟩

theorem run_reachable (P : Env) (fuel : Nat) (ops : List Op) (s : Statics) (d : Store)
    (hs : Reachable P fuel s) :
    ∃ s1 d1, run P fuel ops s d = some (s1, d1) ∧ Reachable P fuel s1 := by
  induction ops generalizing s d with
  | nil => exact ⟨s, d, rfl, hs⟩
  | cons o os ih =>
    obtain ⟨s1, d1, h1, hr1⟩ := step_reachable P fuel o s d hs
    obtain ⟨s2, d2, h2, hr2⟩ := ih s1 d1 hr1
    exact ⟨s2, d2, by simp [run, h1, h2], hr2⟩

end DataStore

/-! ## The statics of `src/data_store.hpp` -/

namespace DataStore0

theorem get_type_key_cached (P : Env) (T U : CType) (s : Statics) (k : Nat)
    (h : s T = some k) : (get_type_key P U s).2 T = some k := by
  unfold get_type_key
  cases hU : s U with
  | some _ => simpa using h
  | none =>
    have hne : T ≠ U := by
      intro e
      rw [e, hU] at h
      exact absurd h (by simp)
    simp [Function.update, hne, h]

theorem get_type_key_records (P : Env) (T : CType) (s : Statics) :
    (get_type_key P T s).2 T = some (get_type_key P T s).1 := by
  unfold get_type_key
  cases hT : s T with
  | some _ => simpa using hT
  | none => simp [Function.update]

theorem resolve_all_cached (P : Env) (T : CType) (Ts : List CType) (s : Statics) (k : Nat)
    (h : s T = some k) : resolve_all P Ts s T = some k := by
  induction Ts generalizing s with
  | nil => exact h
  | cons U Us ih => exact ih _ (get_type_key_cached P T U s k h)

theorem get_type_key_of_cached (P : Env) (T : CType) (s : Statics) (k : Nat)
    (h : s T = some k) : (get_type_key P T s).1 = k := by
  simp [get_type_key, h]

end DataStore0

/-! ## Claims about the type-key resolver and the store -/

namespace DataStore

/-- C1, evaluated on the code: the resolver is not injective. In
`src/datastore/data_store.hpp` the first resolutions of any two types `T1` and `T2`
both return the key `0`, since `object_key` is never assigned; in `src/data_store.hpp`
two distinct types whose descriptors hash alike get the same key. -/
theorem get_type_key_not_injective :
    (∀ (P : Env) (fuel : Nat) (T1 T2 : CType), ∃ s1 s2,
      get_type_key P fuel T1 Statics.init = some (0, s1) ∧
      get_type_key P fuel T2 s1 = some (0, s2)) ∧
    Foo ≠ Widget ∧
    (DataStore0.get_type_key Env.colliding Widget
        (DataStore0.get_type_key Env.colliding Foo DataStore0.Statics.init).2).1 =
      (DataStore0.get_type_key Env.colliding Foo DataStore0.Statics.init).1 := by
  refine ⟨?_, by decide, by rfl⟩
  intro P fuel T1 T2
  obtain ⟨s1, h1, r1⟩ := get_type_key_reachable P fuel T1 Statics.init Reachable.init
  obtain ⟨s2, h2, _⟩ := get_type_key_reachable P fuel T2 s1 r1
  exact ⟨s1, s2, h1, h2⟩

/-- C2, evaluated on the code: a second `insert<Foo>` does not replace the entry. After
`insert<Foo>(1)` and `insert<Foo>(2)` on a new store the store still holds the value `1`
and `get<Foo>()` points at `1`, in `src/datastore/data_store.hpp` and in
`src/data_store.hpp` alike. -/
theorem insert_does_not_replace :
    (∀ (P : Env) (fuel : Nat), ∃ s d s2,
      run P fuel [.insert Foo 1, .insert Foo 2] Statics.init Store.empty = some (s, d) ∧
      d._data = [(0, ⟨Foo, 1⟩)] ∧
      get P fuel Foo s d = some (.address (some 1), s2)) ∧
    (∀ (P : Env),
      (DataStore0.get P Foo
        (DataStore0.insert P Foo 2
          (DataStore0.insert P Foo 1 DataStore0.Statics.init Store.empty).1
          (DataStore0.insert P Foo 1 DataStore0.Statics.init Store.empty).2).1
        (DataStore0.insert P Foo 2
          (DataStore0.insert P Foo 1 DataStore0.Statics.init Store.empty).1
          (DataStore0.insert P Foo 1 DataStore0.Statics.init Store.empty).2).2).1 =
        .address (some 1)) := by
  constructor
  · intro P fuel
    obtain ⟨s1, h1, r1⟩ := insert_reachable P fuel Foo 1 Statics.init Store.empty Reachable.init
    obtain ⟨s2, h2, r2⟩ := insert_reachable P fuel Foo 2 s1 ⟨[(0, ⟨Foo, 1⟩)]⟩ r1
    have e1 : insert P fuel Foo 1 Statics.init Store.empty = some (s1, ⟨[(0, ⟨Foo, 1⟩)]⟩) := h1
    obtain ⟨s3, h3, _⟩ := get_reachable_found P fuel Foo s2
      ⟨[(0, ⟨Foo, 1⟩)]⟩ ⟨Foo, 1⟩ r2 rfl
    refine ⟨s2, ⟨[(0, ⟨Foo, 1⟩)]⟩, s3, ?_, rfl, h3⟩
    simp only [run, step, e1, h2]
    rfl
  · intro P
    simp [DataStore0.get, DataStore0.insert, DataStore0.get_type_key, DataStore0.Statics.init,
      Store.empty, map_insert, map_find, make_any, decode, any_cast, typeid, Foo,
      CType.remove_reference, CType.is_shared_ptr, CType.is_pointer, Except.map,
      Function.update]

/-- C3, evaluated on the code: the three shapes of `Foo` share one slot. After inserting
a `Foo` value, a non-null `Foo*` and a non-empty `shared_ptr<Foo>` into a new store, the
store holds the value alone, `get<Foo*>()` returns `nullptr` and
`get<shared_ptr<Foo>>()` returns the empty handle. -/
theorem shapes_share_one_slot :
    ∀ (P : Env) (fuel : Nat), ∃ s d s2 s3,
      run P fuel [.insert Foo 1, .insert (.ptr Foo) 100, .insert (.shared_ptr Foo) 200]
        Statics.init Store.empty = some (s, d) ∧
      d._data = [(0, ⟨Foo, 1⟩)] ∧
      get P fuel (.ptr Foo) s d = some (.pointer 0, s2) ∧
      get P fuel (.shared_ptr Foo) s d = some (.handle 0, s3) := by
  intro P fuel
  obtain ⟨s1, h1, r1⟩ := insert_reachable P fuel Foo 1 Statics.init Store.empty Reachable.init
  obtain ⟨s2, h2, r2⟩ := insert_reachable P fuel (.ptr Foo) 100 s1 ⟨[(0, ⟨Foo, 1⟩)]⟩ r1
  obtain ⟨s3, h3, r3⟩ := insert_reachable P fuel (.shared_ptr Foo) 200 s2 ⟨[(0, ⟨Foo, 1⟩)]⟩ r2
  have e1 : insert P fuel Foo 1 Statics.init Store.empty = some (s1, ⟨[(0, ⟨Foo, 1⟩)]⟩) := h1
  have e2 : insert P fuel (.ptr Foo) 100 s1 ⟨[(0, ⟨Foo, 1⟩)]⟩ =
      some (s2, ⟨[(0, ⟨Foo, 1⟩)]⟩) := h2
  obtain ⟨s4, h4, _⟩ := get_reachable_found P fuel (.ptr Foo) s3
    ⟨[(0, ⟨Foo, 1⟩)]⟩ ⟨Foo, 1⟩ r3 rfl
  obtain ⟨s5, h5, _⟩ := get_reachable_found P fuel (.shared_ptr Foo) s3
    ⟨[(0, ⟨Foo, 1⟩)]⟩ ⟨Foo, 1⟩ r3 rfl
  refine ⟨s3, ⟨[(0, ⟨Foo, 1⟩)]⟩, s4, s5, ?_, rfl, h4, h5⟩
  simp only [run, step, e1, e2, h3]
  rfl

/-- C4 as stated fails: after `insert<Foo*>(nullptr)` on a new store, `get<Foo*>()`
returns the stored pointer, which is null. -/
theorem round_trip_null_pointer :
    ((insert Env.sample 0 (.ptr Foo) 0 Statics.init Store.empty).bind
      (fun r => (get Env.sample 0 (.ptr Foo) r.1 r.2).map (fun g => (g.1, g.1.is_null)))) =
      some (.pointer 0, true) := by
  rfl

/-- C4, amended: on a store with no entry under the key of `T`, `insert<T>(v)` followed by
`get<T>()` returns the address of a stored value equal to `v` when `T` is a value type,
the raw pointer `v` itself when `T` is a raw pointer type and the handle `v` itself when
`T` is a shared handle type; that result is null exactly when `T` is a pointer or
shared handle type and `v` is itself null or empty. -/
theorem insert_get_round_trip (P : Env) (fuel : Nat) (T : CType) (v : Nat) (s : Statics)
    (d : Store) (hs : Reachable P fuel s)
    (hfree : ∀ k s1, get_type_key P fuel T s = some (k, s1) → map_find k d._data = none) :
    ∃ s1 d1, insert P fuel T v s d = some (s1, d1) ∧
      get P fuel T s1 d1 = some (stored_result T v, s1) ∧
      ((stored_result T v).is_null = true ↔
        (T.is_shared_ptr = true ∨ T.is_pointer = true) ∧ v = 0) := by
  obtain ⟨s1, hk, _⟩ := get_type_key_reachable P fuel T s hs
  have hnone := hfree 0 s1 hk
  have hk2 := get_type_key_again P fuel T s s1 0 hk
  refine ⟨s1, ⟨map_insert 0 (make_any T v) d._data⟩, by simp [insert, hk], ?_,
    stored_result_is_null T v⟩
  simp [get, hk2, map_find_insert_free 0 (make_any T v) d._data hnone, decode_make_any]

/-- Instance of `insert_get_round_trip`: a `Foo` with contents `5` on a new store. -/
theorem insert_get_round_trip_witness :
    ∃ s1 d1, insert Env.sample 0 Foo 5 Statics.init Store.empty = some (s1, d1) ∧
      get Env.sample 0 Foo s1 d1 = some (stored_result Foo 5, s1) ∧
      ((stored_result Foo 5).is_null = true ↔
        (Foo.is_shared_ptr = true ∨ Foo.is_pointer = true) ∧ 5 = 0) :=
  insert_get_round_trip Env.sample 0 Foo 5 Statics.init Store.empty Reachable.init
    (fun _ _ _ => rfl)

/-- C5: when the store has no entry under the key of `T`, `get<T>()` returns
`bad_value`: the empty handle for a shared handle type, the null pointer for a raw
pointer type and for a value type; no exception is part of the result. -/
theorem get_missing_returns_sentinel (P : Env) (fuel : Nat) (T : CType) (s : Statics)
    (d : Store) (hs : Reachable P fuel s)
    (hmiss : ∀ k s1, get_type_key P fuel T s = some (k, s1) → map_find k d._data = none) :
    ∃ s1, get P fuel T s d = some (bad_value T, s1) ∧
      bad_value T =
        (if T.is_shared_ptr then Result.handle 0
         else if T.is_pointer then Result.pointer 0 else Result.address none) ∧
      (bad_value T).is_null = true := by
  obtain ⟨s1, hk, _⟩ := get_type_key_reachable P fuel T s hs
  have hnone := hmiss 0 s1 hk
  exact ⟨s1, by simp [get, hk, hnone], rfl, bad_value_is_null T⟩

/-- Instance of `get_missing_returns_sentinel`: `get<shared_ptr<Foo>>()` on a new
store. -/
theorem get_missing_returns_sentinel_witness :
    ∃ s1, get Env.sample 0 (.shared_ptr Foo) Statics.init Store.empty =
        some (bad_value (.shared_ptr Foo), s1) ∧
      bad_value (.shared_ptr Foo) =
        (if (CType.shared_ptr Foo).is_shared_ptr then Result.handle 0
         else if (CType.shared_ptr Foo).is_pointer then Result.pointer 0
         else Result.address none) ∧
      (bad_value (.shared_ptr Foo)).is_null = true :=
  get_missing_returns_sentinel Env.sample 0 (.shared_ptr Foo) Statics.init Store.empty
    Reachable.init (fun _ _ _ => rfl)

/-- C6: when the entry found under the key of `T` records a type other than `T`,
`get<T>()` returns `bad_value`, the result it gives on a miss; the `bad_any_cast` is
caught inside `get`. -/
theorem get_mismatch_returns_sentinel (P : Env) (fuel : Nat) (T : CType) (s : Statics)
    (d : Store) (entry : any) (hs : Reachable P fuel s)
    (hfound : ∀ k s1, get_type_key P fuel T s = some (k, s1) →
      map_find k d._data = some entry)
    (hty : entry.type ≠ typeid T) :
    decode T entry = .error .bad_any_cast ∧
    ∃ s1, get P fuel T s d = some (bad_value T, s1) ∧
      get P fuel T s (clear d) = some (bad_value T, s1) := by
  obtain ⟨s1, hk, _⟩ := get_type_key_reachable P fuel T s hs
  have hsome := hfound 0 s1 hk
  refine ⟨decode_mismatch T entry hty, s1, ?_, by simp [get, hk, clear, map_find]⟩
  simp [get, hk, hsome, decode_mismatch T entry hty]

/-- Instance of `get_mismatch_returns_sentinel`: `get<Foo>()` on a store whose entry
under key `0` is a `Widget`. -/
theorem get_mismatch_returns_sentinel_witness :
    decode Foo ⟨Widget, 7⟩ = .error .bad_any_cast ∧
    ∃ s1, get Env.sample 0 Foo Statics.init ⟨[(0, ⟨Widget, 7⟩)]⟩ = some (bad_value Foo, s1) ∧
      get Env.sample 0 Foo Statics.init (clear ⟨[(0, ⟨Widget, 7⟩)]⟩) =
        some (bad_value Foo, s1) :=
  get_mismatch_returns_sentinel Env.sample 0 Foo Statics.init ⟨[(0, ⟨Widget, 7⟩)]⟩
    ⟨Widget, 7⟩ Reachable.init
    (fun k s1 h => by
      obtain ⟨_, _, hk⟩ := get_type_key_frame _ _ _ _ _ _ h
      subst hk
      rfl)
    (by decide)

/-- C7: after `clear()` the store holds no entries and `get<T>()` returns `bad_value`,
a null result, for every type `T`. -/
theorem clear_empties_store (P : Env) (fuel : Nat) (s : Statics) (d : Store)
    (hs : Reachable P fuel s) :
    (clear d)._data = [] ∧
    ∀ T : CType, ∃ s1, get P fuel T s (clear d) = some (bad_value T, s1) ∧
      (bad_value T).is_null = true := by
  refine ⟨rfl, fun T => ?_⟩
  obtain ⟨s1, h, _⟩ := get_reachable_absent P fuel T s (clear d) hs rfl
  exact ⟨s1, h, bad_value_is_null T⟩

/-- Instance of `clear_empties_store`: clearing a store that holds a `Foo`. -/
theorem clear_empties_store_witness :
    (clear ⟨[(0, ⟨Foo, 1⟩)]⟩)._data = [] ∧
    ∀ T : CType, ∃ s1, get Env.sample 0 T Statics.init (clear ⟨[(0, ⟨Foo, 1⟩)]⟩) =
        some (bad_value T, s1) ∧
      (bad_value T).is_null = true :=
  clear_empties_store Env.sample 0 Statics.init ⟨[(0, ⟨Foo, 1⟩)]⟩ Reachable.init

/-- C8, evaluated on the code: `erase<Foo>()` removes the entry of another type. On a
store holding only a `Widget` with contents `7`, `get<Widget>()` points at `7` before
`erase<Foo>()` and is null after it. -/
theorem erase_removes_other_type :
    ∀ (P : Env) (fuel : Nat), ∃ s d s2 sa da sb,
      run P fuel [.insert Widget 7] Statics.init Store.empty = some (s, d) ∧
      get P fuel Widget s d = some (.address (some 7), s2) ∧
      erase P fuel Foo s d = some (sa, da) ∧
      get P fuel Widget sa da = some (.address none, sb) := by
  intro P fuel
  obtain ⟨s1, h1, r1⟩ := insert_reachable P fuel Widget 7 Statics.init Store.empty
    Reachable.init
  obtain ⟨s2, h2, _⟩ := get_reachable_found P fuel Widget s1
    ⟨[(0, ⟨Widget, 7⟩)]⟩ ⟨Widget, 7⟩ r1 rfl
  obtain ⟨sa, h3, ra⟩ := erase_reachable P fuel Foo s1 ⟨[(0, ⟨Widget, 7⟩)]⟩ r1
  obtain ⟨sb, h4, _⟩ := get_reachable_absent P fuel Widget sa
    ⟨map_erase 0 [(0, ⟨Widget, 7⟩)]⟩ ra rfl
  refine ⟨s1, ⟨[(0, ⟨Widget, 7⟩)]⟩, s2, sa, _, sb, ?_, h2, h3, h4⟩
  simp only [run, step, h1]
  rfl

/-- C9, evaluated on the code: `erase<T>()` for a type that was never inserted is not a
no-op. On a store holding only a raw pointer `Foo*`, `erase<shared_ptr<Foo>>()` leaves
the store empty. -/
theorem erase_absent_type_changes_store :
    ∀ (P : Env) (fuel : Nat), ∃ s d sa,
      run P fuel [.insert (.ptr Foo) 100] Statics.init Store.empty = some (s, d) ∧
      d._data = [(0, ⟨.ptr Foo, 100⟩)] ∧
      erase P fuel (.shared_ptr Foo) s d = some (sa, Store.empty) := by
  intro P fuel
  obtain ⟨s1, h1, r1⟩ := insert_reachable P fuel (.ptr Foo) 100 Statics.init Store.empty
    Reachable.init
  obtain ⟨sa, h3, _⟩ := erase_reachable P fuel (.shared_ptr Foo) s1
    ⟨[(0, ⟨.ptr Foo, 100⟩)]⟩ r1
  refine ⟨s1, ⟨[(0, ⟨.ptr Foo, 100⟩)]⟩, sa, ?_, rfl, h3⟩
  simp only [run, step, h1]
  rfl

/-- C10: every call of `get_type_key<T>()` returns the key of the first call, whatever
calls on stores (and so whatever resolutions of other types) lie in between; the same
holds for the `static const` key of `src/data_store.hpp`. -/
theorem get_type_key_idempotent (P : Env) (fuel : Nat) (T : CType) (s : Statics)
    (hs : Reachable P fuel s) :
    (∃ k s1, get_type_key P fuel T s = some (k, s1) ∧
      ∀ (ops : List Op) (d : Store), ∃ s2 d2 s3,
        run P fuel ops s1 d = some (s2, d2) ∧ get_type_key P fuel T s2 = some (k, s3)) ∧
    (∀ (c : DataStore0.Statics) (Ts : List CType),
      (DataStore0.get_type_key P T
        (DataStore0.resolve_all P Ts (DataStore0.get_type_key P T c).2)).1 =
      (DataStore0.get_type_key P T c).1) := by
  constructor
  · obtain ⟨s1, hk, r1⟩ := get_type_key_reachable P fuel T s hs
    refine ⟨0, s1, hk, fun ops d => ?_⟩
    obtain ⟨s2, d2, hrun, r2⟩ := run_reachable P fuel ops s1 d r1
    obtain ⟨s3, hk3, _⟩ := get_type_key_reachable P fuel T s2 r2
    exact ⟨s2, d2, s3, hrun, hk3⟩
  · intro c Ts
    exact DataStore0.get_type_key_of_cached P T _ _
      (DataStore0.resolve_all_cached P T Ts _ _ (DataStore0.get_type_key_records P T c))

/-- Instance of `get_type_key_idempotent`: the key of `Foo` from program start. -/
theorem get_type_key_idempotent_witness :
    (∃ k s1, get_type_key Env.sample 0 Foo Statics.init = some (k, s1) ∧
      ∀ (ops : List Op) (d : Store), ∃ s2 d2 s3,
        run Env.sample 0 ops s1 d = some (s2, d2) ∧
        get_type_key Env.sample 0 Foo s2 = some (k, s3)) ∧
    (∀ (c : DataStore0.Statics) (Ts : List CType),
      (DataStore0.get_type_key Env.sample Foo
        (DataStore0.resolve_all Env.sample Ts (DataStore0.get_type_key Env.sample Foo c).2)).1 =
      (DataStore0.get_type_key Env.sample Foo c).1) :=
  get_type_key_idempotent Env.sample 0 Foo Statics.init Reachable.init

end DataStore

/-! ## The rehash loop of `get_unique_key` -/

namespace DataStore

/-- The loop returns `r` exactly when `r` is the first iterate of `std::hash<size_t>` on
the seed that is outside the set, reached within the fuel. -/
theorem rehash_eq_some_iff (P : Env) (S : List Nat) (fuel h r : Nat) :
    rehash P S fuel h = some r ↔
      ∃ n, n ≤ fuel ∧ r = P.hash_size_t^[n] h ∧ r ∉ S ∧
        ∀ m, m < n → P.hash_size_t^[m] h ∈ S := by
  induction fuel generalizing h with
  | zero =>
    by_cases hm : h ∈ S
    · simp only [rehash, hm, if_true]
      constructor
      · intro hc
        exact absurd hc (by simp)
      · rintro ⟨n, hn, hr, hnot, _⟩
        have hn0 : n = 0 := Nat.le_zero.mp hn
        subst hn0
        rw [Function.iterate_zero, id] at hr
        subst hr
        exact absurd hm hnot
    · simp only [rehash, hm, if_false, Option.some.injEq]
      constructor
      · intro hr
        subst hr
        exact ⟨0, le_refl 0, rfl, hm, fun m hlt => absurd hlt (Nat.not_lt_zero m)⟩
      · rintro ⟨n, hn, hr, _, _⟩
        have hn0 : n = 0 := Nat.le_zero.mp hn
        subst hn0
        exact hr.symm
  | succ fuel ih =>
    by_cases hm : h ∈ S
    · simp only [rehash, hm, if_true]
      rw [ih]
      constructor
      · rintro ⟨n, hn, hr, hnot, hall⟩
        refine ⟨n + 1, Nat.succ_le_succ hn, ?_, hnot, ?_⟩
        · rw [Function.iterate_succ_apply]
          exact hr
        · intro m hlt
          cases m with
          | zero => exact hm
          | succ m =>
            rw [Function.iterate_succ_apply]
            exact hall m (Nat.lt_of_succ_lt_succ hlt)
      · rintro ⟨n, hn, hr, hnot, hall⟩
        cases n with
        | zero =>
          rw [Function.iterate_zero, id] at hr
          subst hr
          exact absurd hm hnot
        | succ n =>
          refine ⟨n, Nat.le_of_succ_le_succ hn, ?_, hnot, ?_⟩
          · rw [Function.iterate_succ_apply] at hr
            exact hr
          · intro m hlt
            have := hall (m + 1) (Nat.succ_lt_succ hlt)
            rw [Function.iterate_succ_apply] at this
            exact this
    · simp only [rehash, hm, if_false, Option.some.injEq]
      constructor
      · intro hr
        subst hr
        exact ⟨0, Nat.zero_le _, rfl, hm, fun m hlt => absurd hlt (Nat.not_lt_zero m)⟩
      · rintro ⟨n, _, hr, _, hall⟩
        cases n with
        | zero => exact hr.symm
        | succ n => exact absurd (hall 0 (Nat.succ_pos n)) hm

end DataStore

/-! ## Further facts used by the claims below -/

theorem map_insert_of_isSome (k : Nat) (a : any) (m : List (Nat × any))
    (h : (map_find k m).isSome = true) : map_insert k a m = m := by
  obtain ⟨b, hb⟩ := Option.isSome_iff_exists.mp h
  exact map_find_insert_taken k a b m hb

theorem map_insert_length (k : Nat) (a : any) (m : List (Nat × any)) :
    (map_insert k a m).length = m.length + (if (map_find k m).isSome then 0 else 1) := by
  unfold map_insert
  cases map_find k m <;> simp

/-! ## Claims about `emplace` and lvalues -/

namespace DataStore

/-- C11: `emplace<T>(args...)` leaves the statics and the store exactly as
`insert<T>(T(args...))` does: both return, with the same store; when the key of `T` was
free the new entry holds `T(args...)`, and when it was occupied the store is unchanged. -/
theorem emplace_same_as_insert (P : Env) (fuel : Nat) (T : CType) (args : List Nat)
    (s : Statics) (d : Store) (hs : Reachable P fuel s) :
    emplace P fuel T args s d = insert P fuel T (P.construct T args) s d ∧
    ∃ s1 d1, emplace P fuel T args s d = some (s1, d1) ∧
      insert P fuel T (P.construct T args) s d = some (s1, d1) ∧
      (∀ k s0, get_type_key P fuel T s = some (k, s0) → map_find k d._data = none →
        map_find k d1._data = some (make_any T (P.construct T args))) ∧
      (∀ k s0 e, get_type_key P fuel T s = some (k, s0) → map_find k d._data = some e →
        d1 = d) := by
  obtain ⟨s1, hk, _⟩ := get_type_key_reachable P fuel T s hs
  refine ⟨rfl, s1, ⟨map_insert 0 (make_any T (P.construct T args)) d._data⟩,
    by simp [emplace, hk], by simp [insert, hk], ?_, ?_⟩
  · intro k s0 hk0 hnone
    rw [hk] at hk0
    simp only [Option.some.injEq, Prod.mk.injEq] at hk0
    obtain ⟨hk1, _⟩ := hk0
    subst hk1
    exact map_find_insert_free 0 _ _ hnone
  · intro k s0 e hk0 hsome
    rw [hk] at hk0
    simp only [Option.some.injEq, Prod.mk.injEq] at hk0
    obtain ⟨hk1, _⟩ := hk0
    subst hk1
    rw [map_find_insert_taken 0 _ e _ hsome]

/-- Instance of `emplace_same_as_insert`: `emplace<Foo>(2, 3)` on a store that already
holds a `Foo`. -/
theorem emplace_same_as_insert_witness :
    emplace Env.sample 0 Foo [2, 3] Statics.init ⟨[(0, ⟨Foo, 1⟩)]⟩ =
      insert Env.sample 0 Foo (Env.sample.construct Foo [2, 3]) Statics.init
        ⟨[(0, ⟨Foo, 1⟩)]⟩ ∧
    ∃ s1 d1, emplace Env.sample 0 Foo [2, 3] Statics.init ⟨[(0, ⟨Foo, 1⟩)]⟩ = some (s1, d1) ∧
      insert Env.sample 0 Foo (Env.sample.construct Foo [2, 3]) Statics.init
        ⟨[(0, ⟨Foo, 1⟩)]⟩ = some (s1, d1) ∧
      (∀ k s0, get_type_key Env.sample 0 Foo Statics.init = some (k, s0) →
        map_find k (Store.mk [(0, ⟨Foo, 1⟩)])._data = none →
        map_find k d1._data = some (make_any Foo (Env.sample.construct Foo [2, 3]))) ∧
      (∀ k s0 e, get_type_key Env.sample 0 Foo Statics.init = some (k, s0) →
        map_find k (Store.mk [(0, ⟨Foo, 1⟩)])._data = some e → d1 = ⟨[(0, ⟨Foo, 1⟩)]⟩) :=
  emplace_same_as_insert Env.sample 0 Foo [2, 3] Statics.init ⟨[(0, ⟨Foo, 1⟩)]⟩
    Reachable.init

/-- C12, evaluated on the code: a `Foo` inserted as an lvalue, so with the template
argument `Foo&`, is not stored when the store holds an entry of another type. On a store
that holds only a `Widget`, and so no entry of type `Foo`, `insert(foo)` leaves the
store as it was and the following `get<Foo>()` returns `nullptr`. -/
theorem lvalue_insert_lost_when_other_type_stored :
    ∀ (P : Env) (fuel : Nat), ∃ s d s1 s2,
      run P fuel [.insert Widget 7] Statics.init Store.empty = some (s, d) ∧
      d._data = [(0, ⟨Widget, 7⟩)] ∧
      (∀ e ∈ d._data, e.2.type ≠ Foo) ∧
      insert P fuel (.lref Foo) 5 s d = some (s1, d) ∧
      get P fuel Foo s1 d = some (.address none, s2) := by
  intro P fuel
  obtain ⟨s0, h0, r0⟩ := insert_reachable P fuel Widget 7 Statics.init Store.empty
    Reachable.init
  have e0 : insert P fuel Widget 7 Statics.init Store.empty =
      some (s0, ⟨[(0, ⟨Widget, 7⟩)]⟩) := h0
  obtain ⟨s1, h1, r1⟩ := insert_reachable P fuel (.lref Foo) 5 s0 ⟨[(0, ⟨Widget, 7⟩)]⟩ r0
  have e1 : insert P fuel (.lref Foo) 5 s0 ⟨[(0, ⟨Widget, 7⟩)]⟩ =
      some (s1, ⟨[(0, ⟨Widget, 7⟩)]⟩) := h1
  obtain ⟨s2, h2, _⟩ := get_reachable_found P fuel Foo s1
    ⟨[(0, ⟨Widget, 7⟩)]⟩ ⟨Widget, 7⟩ r1 rfl
  refine ⟨s0, ⟨[(0, ⟨Widget, 7⟩)]⟩, s1, s2, ?_, rfl, ?_, e1, h2⟩
  · simp only [run, step, e0]
  · intro e he
    simp only [List.mem_singleton] at he
    subst he
    decide

end DataStore

/-! ## Claims about the collision repair -/

namespace DataStore

/-- C15, evaluated on the code: the key returned for a type is not the key that
`get_unique_key` computed. At the first resolution of any type `T` from program start
`get_unique_key` returns the hash code of the descriptor, while `get_type_key<T>()`
returns `0`, then and on the next call; for `Foo` in the sample environment these are
`4` and `0`. -/
theorem cached_key_is_not_unique_key :
    (∀ (P : Env) (fuel : Nat) (T : CType), ∃ s1,
      get_type_key P fuel T Statics.init = some (0, s1) ∧
      get_unique_key P fuel s1 (typeid T) = some (P.hash_code (typeid T)) ∧
      get_type_key P fuel T s1 = some (0, s1)) ∧
    Env.sample.hash_code (typeid Foo) = 4 := by
  refine ⟨fun P fuel T => ?_, rfl⟩
  obtain ⟨s1, hk, r1⟩ := get_type_key_reachable P fuel T Statics.init Reachable.init
  refine ⟨s1, hk, ?_, get_type_key_again P fuel T _ s1 0 hk⟩
  simp [get_unique_key, r1.inv.1, rehash_empty]

/-- C16, evaluated on the code: the key produced for a type is not recorded. After the
first resolution of any type `hash_set` is still empty; with two descriptors that both
hash to `7`, `get_unique_key` returns `7` for `Foo` and, after `Foo` was resolved, `7`
again for `Widget`. -/
theorem issued_key_not_recorded :
    (∀ (P : Env) (fuel : Nat) (T : CType), ∃ s1,
      get_type_key P fuel T Statics.init = some (0, s1) ∧ s1.hash_set = []) ∧
    (∀ fuel : Nat, ∃ s1,
      get_unique_key Env.colliding fuel Statics.init (typeid Foo) = some 7 ∧
      get_type_key Env.colliding fuel Foo Statics.init = some (0, s1) ∧
      get_unique_key Env.colliding fuel s1 (typeid Widget) = some 7) := by
  constructor
  · intro P fuel T
    obtain ⟨s1, hk, r1⟩ := get_type_key_reachable P fuel T Statics.init Reachable.init
    exact ⟨s1, hk, r1.inv.1⟩
  · intro fuel
    obtain ⟨s1, hk, r1⟩ :=
      get_type_key_reachable Env.colliding fuel Foo Statics.init Reachable.init
    refine ⟨s1, ?_, hk, ?_⟩
    · simp [get_unique_key, Statics.init, rehash_empty, Env.colliding]
    · simp [get_unique_key, r1.inv.1, rehash_empty, Env.colliding]

/-- C17: `get_unique_key` returns `r` exactly when `r` is the first element of the
sequence `h, f(h), f(f(h)), ...` that is not in `hash_set`, where `h` is the hash code of
the descriptor and `f` is `std::hash<size_t>`, and the loop gets that far; so a returned
value is never in `hash_set`, and `h` itself is returned when it is not in `hash_set`. -/
theorem get_unique_key_first_unused (P : Env) (fuel : Nat) (s : Statics) (type_index : CType)
    (r : Nat) :
    (get_unique_key P fuel s type_index = some r ↔
      ∃ n, n ≤ fuel ∧ r = P.hash_size_t^[n] (P.hash_code type_index) ∧ r ∉ s.hash_set ∧
        ∀ m, m < n → P.hash_size_t^[m] (P.hash_code type_index) ∈ s.hash_set) ∧
    (get_unique_key P fuel s type_index = some r → r ∉ s.hash_set) ∧
    (P.hash_code type_index ∉ s.hash_set →
      get_unique_key P fuel s type_index = some (P.hash_code type_index)) := by
  have hiff := rehash_eq_some_iff P s.hash_set fuel (P.hash_code type_index)
  refine ⟨hiff r, ?_, ?_⟩
  · intro h
    obtain ⟨_, _, _, hnot, _⟩ := (hiff r).mp h
    exact hnot
  · intro hnot
    exact (hiff _).mpr ⟨0, Nat.zero_le _, rfl, hnot, fun m hlt => absurd hlt (Nat.not_lt_zero m)⟩

/-- C19, evaluated on the code: the type check of `get` is hit. After `insert<Widget>(7)`
on a new store, the entry found under the key of `Foo` records the type `Widget`; the
cast in `get<Foo>()` throws `bad_any_cast` and `get<Foo>()` returns `nullptr` through
the `catch` block. -/
theorem decode_mismatch_is_reachable :
    ∀ (P : Env) (fuel : Nat), ∃ s d s2,
      run P fuel [.insert Widget 7] Statics.init Store.empty = some (s, d) ∧
      get_type_key P fuel Foo s = some (0, s2) ∧
      map_find 0 d._data = some ⟨Widget, 7⟩ ∧
      decode Foo ⟨Widget, 7⟩ = .error .bad_any_cast ∧
      get P fuel Foo s d = some (.address none, s2) := by
  intro P fuel
  obtain ⟨s1, h1, r1⟩ := insert_reachable P fuel Widget 7 Statics.init Store.empty
    Reachable.init
  have e1 : insert P fuel Widget 7 Statics.init Store.empty =
      some (s1, ⟨[(0, ⟨Widget, 7⟩)]⟩) := h1
  obtain ⟨s2, hk, _⟩ := get_type_key_reachable P fuel Foo s1 r1
  refine ⟨s1, ⟨[(0, ⟨Widget, 7⟩)]⟩, s2, ?_, hk, rfl,
    decode_mismatch Foo ⟨Widget, 7⟩ (by decide), ?_⟩
  · simp only [run, step, e1]
  · simp only [get, hk]
    rfl

/-- C20: when the store already holds an entry under the key of `T`, `insert<T>(v)` and
`emplace<T>(args...)` return with the store unchanged, in both headers; and for any
store the number of entries after `insert` or `emplace` is the number before, plus one
exactly when the key was free. -/
theorem insert_emplace_never_overwrite (P : Env) (fuel : Nat) (T : CType) (v : Nat)
    (args : List Nat) (s : Statics) (d : Store) (c : DataStore0.Statics) (d0 : Store)
    (hs : Reachable P fuel s)
    (hocc : ∀ k s1, get_type_key P fuel T s = some (k, s1) →
      (map_find k d._data).isSome = true)
    (hocc0 : (map_find (DataStore0.get_type_key P T c).1 d0._data).isSome = true) :
    (∃ s1, insert P fuel T v s d = some (s1, d)) ∧
    (∃ s1, emplace P fuel T args s d = some (s1, d)) ∧
    (DataStore0.insert P T v c d0).2 = d0 ∧
    (DataStore0.emplace P T args c d0).2 = d0 ∧
    (∀ e : Store, ∃ k s1 d1 d2, get_type_key P fuel T s = some (k, s1) ∧
      insert P fuel T v s e = some (s1, d1) ∧
      emplace P fuel T args s e = some (s1, d2) ∧
      d1._data.length = e._data.length + (if (map_find k e._data).isSome then 0 else 1) ∧
      d2._data.length = e._data.length + (if (map_find k e._data).isSome then 0 else 1)) := by
  obtain ⟨s1, hk, _⟩ := get_type_key_reachable P fuel T s hs
  have h0 := hocc 0 s1 hk
  refine ⟨⟨s1, ?_⟩, ⟨s1, ?_⟩, ?_, ?_, fun e => ?_⟩
  · simp [insert, hk, map_insert_of_isSome 0 _ d._data h0]
  · simp [emplace, hk, map_insert_of_isSome 0 _ d._data h0]
  · simp [DataStore0.insert, map_insert_of_isSome _ _ d0._data hocc0]
  · simp [DataStore0.emplace, map_insert_of_isSome _ _ d0._data hocc0]
  · exact ⟨0, s1, ⟨map_insert 0 (make_any T v) e._data⟩,
      ⟨map_insert 0 (make_any T (P.construct T args)) e._data⟩, hk,
      by simp [insert, hk], by simp [emplace, hk],
      map_insert_length 0 _ e._data, map_insert_length 0 _ e._data⟩

/-- Instance of `insert_emplace_never_overwrite`: a second `Foo` offered to stores that
hold a `Foo` under its key. -/
theorem insert_emplace_never_overwrite_witness :
    (∃ s1, insert Env.sample 0 Foo 2 Statics.init ⟨[(0, ⟨Foo, 1⟩)]⟩ =
      some (s1, ⟨[(0, ⟨Foo, 1⟩)]⟩)) ∧
    (∃ s1, emplace Env.sample 0 Foo [2] Statics.init ⟨[(0, ⟨Foo, 1⟩)]⟩ =
      some (s1, ⟨[(0, ⟨Foo, 1⟩)]⟩)) ∧
    (DataStore0.insert Env.sample Foo 2 DataStore0.Statics.init ⟨[(4, ⟨Foo, 1⟩)]⟩).2 =
      ⟨[(4, ⟨Foo, 1⟩)]⟩ ∧
    (DataStore0.emplace Env.sample Foo [2] DataStore0.Statics.init ⟨[(4, ⟨Foo, 1⟩)]⟩).2 =
      ⟨[(4, ⟨Foo, 1⟩)]⟩ ∧
    (∀ e : Store, ∃ k s1 d1 d2, get_type_key Env.sample 0 Foo Statics.init = some (k, s1) ∧
      insert Env.sample 0 Foo 2 Statics.init e = some (s1, d1) ∧
      emplace Env.sample 0 Foo [2] Statics.init e = some (s1, d2) ∧
      d1._data.length = e._data.length + (if (map_find k e._data).isSome then 0 else 1) ∧
      d2._data.length = e._data.length + (if (map_find k e._data).isSome then 0 else 1)) :=
  insert_emplace_never_overwrite Env.sample 0 Foo 2 [2] Statics.init ⟨[(0, ⟨Foo, 1⟩)]⟩
    DataStore0.Statics.init ⟨[(4, ⟨Foo, 1⟩)]⟩ Reachable.init
    (fun k s1 h => by
      obtain ⟨_, _, hk⟩ := get_type_key_frame _ _ _ _ _ _ h
      subst hk
      rfl)
    rfl

end DataStore
